import Mathlib

/-!
Verification of the webcam capture / face-detection demo application.

The development shallowly embeds the three units of the repository that the
properties below are about:

* the `WebcamCapture` component (photo capture, save, retake, stream
  lifecycle), embedded as a record of its React state hooks plus pure
  transition functions for each handler;
* the `POST /api/save-image` route handler, embedded as a pure function of
  the request body, the random bytes drawn for the filename, and the
  outcome of the file write;
* the `FaceDetection` component (model loading, webcam effect, detection
  loop, overlay drawing), embedded as a state machine over the component's
  hooks together with drawing-operation lists for the overlay canvas.

Browser and Node primitives (`getUserMedia`, `toDataURL`, `fetch`,
`writeFile`, `detectSingleFace`, animation frames) are external
collaborators; their results enter the embedding as explicit parameters,
and `toDataURL` is modelled as a concrete data-URI-shaped encoding of the
canvas raster.  Numeric confidence scores (JS numbers) are embedded as
rationals.
-/

/- ## JS numeric helpers -/

/-- Model of JS `Math.round`: round half towards positive infinity.
`Rat.divInt 1 2` is definitionally `(1 : ℚ)/2` (see `jsRound_eq_floor_half`)
and is used so that the function evaluates by kernel reduction. -/
def jsRound (q : ℚ) : ℤ := ⌊q + Rat.divInt 1 2⌋

theorem jsRound_eq_floor_half (q : ℚ) : jsRound q = ⌊q + 1/2⌋ := by
  have h : (Rat.divInt 1 2 : ℚ) = 1/2 := by rw [Rat.divInt_eq_div]; norm_num
  rw [jsRound, h]

/- ## WebcamCapture component state

`app/components/WebcamCapture.tsx` keeps four hooks: `stream`,
`capturedImage`, `isSaving`, `savedFileName`.  The stream handle is
modelled separately (see the stream world below); the remaining three form
the state the save/capture/retake handlers act on. -/

structure CaptureState where
  capturedImage : Option String
  isSaving : Bool
  savedFileName : Option String
deriving DecidableEq

/-- JS truthiness of the `capturedImage` hook: `!capturedImage` is `true`
exactly when the value is `null` or the empty string. -/
def jsFalsyStr : Option String → Bool
  | none => true
  | some s => s == ""

/-- Outcome of the `fetch("/api/save-image", ...)` round trip as observed by
`savePhoto`: the response parsed with `data.success` true, `data.success`
false, or an exception thrown anywhere in the `try` block. -/
inductive SaveOutcome
  | ok (fileName : String)
  | serverFail
  | netError
deriving DecidableEq

/-- Result of one `savePhoto` invocation: the component state afterwards,
whether a persistence request was issued, and the `console.error` lines. -/
structure SaveResult where
  state : CaptureState
  requestSent : Bool
  logs : List String
deriving DecidableEq

/-- `savePhoto` from `WebcamCapture.tsx`: early-return when
`!capturedImage`; otherwise `setIsSaving(true)`, POST the image, on
`data.success` store the filename, on failure or exception log, and in the
`finally` block `setIsSaving(false)`.  The net effect on the state is
recorded (the transient `isSaving = true` phase ends inside the same
invocation). -/
def savePhoto (st : CaptureState) (outcome : SaveOutcome) : SaveResult :=
  if jsFalsyStr st.capturedImage then ⟨st, false, []⟩
  else
    match outcome with
    | .ok fn => ⟨{ st with isSaving := false, savedFileName := some fn }, true, []⟩
    | .serverFail => ⟨{ st with isSaving := false }, true, ["Failed to save image"]⟩
    | .netError => ⟨{ st with isSaving := false }, true, ["Error saving image:"]⟩

/-- The save button's `disabled` attribute: `isSaving || savedFileName !== null`. -/
def saveDisabled (st : CaptureState) : Bool :=
  st.isSaving || st.savedFileName.isSome

/-- Clicking the save trigger: a disabled button fires no handler, an
enabled one runs `savePhoto`. -/
def clickSave (st : CaptureState) (outcome : SaveOutcome) : SaveResult :=
  if saveDisabled st then ⟨st, false, []⟩ else savePhoto st outcome

/-- `retake` from `WebcamCapture.tsx`, state part: clear `capturedImage`
and `savedFileName` (the stream restart is modelled in the stream world). -/
def retakeState (st : CaptureState) : CaptureState :=
  { st with capturedImage := none, savedFileName := none }

/- ## Frame capture -/

/-- The live `<video>` element: its reported frame dimensions and an
identifier for the camera frame currently displayed (frame pixel data is
produced by the external camera). -/
structure VideoEl where
  videoWidth : Nat
  videoHeight : Nat
  frame : Nat
deriving DecidableEq

/-- Contents of a canvas raster: blank, or holding a video frame drawn at a
given size by `drawImage`. -/
inductive CanvasContent
  | blank
  | drawn (frame w h : Nat)
deriving DecidableEq

structure Canvas where
  width : Nat
  height : Nat
  content : CanvasContent
deriving DecidableEq

/-- Payload part of the modelled `toDataURL` output. -/
def canvasPayload : CanvasContent → String
  | .blank => "blank"
  | .drawn f w h => "frame" ++ toString f ++ "at" ++ toString w ++ "x" ++ toString h

/-- Model of `HTMLCanvasElement.toDataURL("image/png")` (external browser
primitive): a data-URI string whose payload encodes the canvas raster. -/
def canvasToDataURL (c : Canvas) : String :=
  "data:image/png;base64," ++ canvasPayload c.content

/-- `capturePhoto` from `WebcamCapture.tsx`: guarded on both refs being
non-null; sets `canvas.width/height` to `video.videoWidth/videoHeight`,
then (if a 2d context is obtained) draws the current video frame at the
canvas size, serializes it, stores the data URL in `capturedImage` and
resets `savedFileName`.  Returns the canvas raster (the captured frame)
and the updated component state. -/
def capturePhoto (videoRef : Option VideoEl) (canvasRef : Option Canvas)
    (ctxOk : Bool) (st : CaptureState) : Option Canvas × CaptureState :=
  match videoRef, canvasRef with
  | some video, some canvas =>
    let c1 : Canvas := { canvas with width := video.videoWidth, height := video.videoHeight }
    if ctxOk then
      let c2 : Canvas := { c1 with content := .drawn video.frame c1.width c1.height }
      (some c2, { st with capturedImage := some (canvasToDataURL c2), savedFileName := none })
    else (some c1, st)
  | _, _ => (none, st)

/- ## Camera stream world

`getUserMedia` hands out `MediaStream`s whose tracks can be stopped
individually.  The world records every stream ever acquired on the page
together with the stopped flag of each of its tracks; a video-only
constraint yields a single video track. -/

structure MStream where
  id : Nat
  trackStopped : List Bool
deriving DecidableEq

/-- All streams acquired so far; fresh ids are allocated sequentially. -/
abbrev StreamWorld := List MStream

/-- `stream.getTracks().forEach(track => track.stop())`. -/
def stopTracks (w : StreamWorld) (sid : Nat) : StreamWorld :=
  w.map fun s => if s.id = sid then { s with trackStopped := s.trackStopped.map fun _ => true } else s

/-- `navigator.mediaDevices.getUserMedia({video: {width: 640, height: 480}})`
on a granted permission: a fresh stream with one live video track. -/
def acquireStream (w : StreamWorld) : Nat × StreamWorld :=
  (w.length, w ++ [⟨w.length, [false]⟩])

/-- A stream is active while it still has a track that was not stopped. -/
def streamActive (w : StreamWorld) (sid : Nat) : Bool :=
  w.any fun s => s.id = sid && s.trackStopped.any (fun t => !t)

/-- `startVideo` from `WebcamCapture.tsx`: stop every track of the
previously held stream, then request a new one; `grant` is whether
`getUserMedia` resolves, `videoRefSome` whether `videoRef.current` is
non-null when it does.  Only in the latter case is the new stream bound
and recorded via `setStream`; on rejection the handler just logs. -/
def startVideo (held : Option Nat) (w : StreamWorld) (grant videoRefSome : Bool) :
    Option Nat × StreamWorld :=
  let w1 := match held with
    | some sid => stopTracks w sid
    | none => w
  if grant then
    let (nid, w2) := acquireStream w1
    if videoRefSome then (some nid, w2) else (held, w2)
  else (held, w1)

/-- Runtime of a mounted `WebcamCapture`: the `stream` hook, the value of
`stream` captured by the mount effect's cleanup closure, and the world. -/
structure CompRuntime where
  stream : Option Nat
  cleanupCaptured : Option Nat
  world : StreamWorld
deriving DecidableEq

/-- Mounting `WebcamCapture`: the `useEffect(..., [])` body runs once after
the first render and calls `startVideo()`.  The cleanup function it returns
closes over that first render's `stream` binding, whose value is the
`useState(null)` initial value — not any stream assigned later. -/
def mountWebcamCapture (w : StreamWorld) (grant videoRefSome : Bool) : CompRuntime :=
  let initialStream : Option Nat := none
  let cleanupCaptured := initialStream
  let (st, w1) := startVideo initialStream w grant videoRefSome
  ⟨st, cleanupCaptured, w1⟩

/-- Unmounting: React invokes the cleanup registered at mount, which stops
the tracks of the stream it captured (if any). -/
def unmountWebcamCapture (c : CompRuntime) : StreamWorld :=
  match c.cleanupCaptured with
  | some sid => stopTracks c.world sid
  | none => c.world

/-- `retake` from `WebcamCapture.tsx`: clear the two state fields, then
`await startVideo()` with the currently held stream. -/
def retake (st : CaptureState) (held : Option Nat) (w : StreamWorld)
    (grant videoRefSome : Bool) : CaptureState × Option Nat × StreamWorld :=
  let st1 := retakeState st
  let (held1, w1) := startVideo held w grant videoRefSome
  (st1, held1, w1)

/- ## The save-image API route

`app/api/save-image/route.ts`.  String scanning for the
`/^data:image\/\w+;base64,/` replace is done on character lists. -/

/-- Character class `\w`. -/
def isWordChar (c : Char) : Bool := c.isAlphanum || c == '_'

/-- Remove `pre` from the front of `l`, or fail. -/
def dropLeading : List Char → List Char → Option (List Char)
  | [], r => some r
  | _ :: _, [] => none
  | p :: ps, c :: cs => if p == c then dropLeading ps cs else none

/-- Split off the longest leading run of word characters. -/
def takeWord : List Char → List Char × List Char
  | [] => ([], [])
  | c :: cs =>
    if isWordChar c then
      let (w, r) := takeWord cs
      (c :: w, r)
    else ([], c :: cs)

/-- `image.replace(/^data:image\/\w+;base64,/, "")`: if the string starts
with `data:image/`, a non-empty run of word characters and `;base64,`,
drop that prefix; otherwise return the string unchanged. -/
def stripDataUri (s : String) : String :=
  match dropLeading "data:image/".data s.data with
  | none => s
  | some rest =>
    let (w, r) := takeWord rest
    if w.isEmpty then s
    else
      match dropLeading ";base64,".data r with
      | none => s
      | some tail => String.mk tail

/-- Value of a base64 alphabet character; `none` for characters outside the
alphabet (Node's decoder skips those, including `=` padding). -/
def b64Val (c : Char) : Option Nat :=
  if 'A' ≤ c ∧ c ≤ 'Z' then some (c.toNat - 65)
  else if 'a' ≤ c ∧ c ≤ 'z' then some (c.toNat - 71)
  else if '0' ≤ c ∧ c ≤ '9' then some (c.toNat + 4)
  else if c = '+' then some 62
  else if c = '/' then some 63
  else none

/-- Decode a run of base64 digit values to bytes: each full group of four
6-bit values yields three bytes; a trailing group of two or three values
yields one or two bytes. -/
def b64DecodeGroups : List Nat → List Nat
  | a :: b :: c :: d :: rest =>
    (a * 4 + b / 16) :: (b % 16 * 16 + c / 4) :: (c % 4 * 64 + d) :: b64DecodeGroups rest
  | [a, b] => [a * 4 + b / 16]
  | [a, b, c] => [a * 4 + b / 16, b % 16 * 16 + c / 4]
  | _ => []

/-- `Buffer.from(base64Data, "base64")`. -/
def base64Decode (s : String) : List Nat :=
  b64DecodeGroups (s.data.filterMap b64Val)

/-- Lowercase hex digits. -/
def hexDigit (n : Nat) : Char :=
  if n % 16 < 10 then Char.ofNat (48 + n % 16) else Char.ofNat (87 + n % 16)

/-- Whether a character is a lowercase hexadecimal digit. -/
def isHexChar (c : Char) : Bool := ('0' ≤ c && c ≤ '9') || ('a' ≤ c && c ≤ 'f')

/-- One byte printed as two lowercase hex characters. -/
def byteToHex (b : Nat) : List Char := [hexDigit (b / 16), hexDigit b]

def bytesToHexChars : List Nat → List Char
  | [] => []
  | b :: bs => byteToHex b ++ bytesToHexChars bs

/-- `crypto.randomBytes(16).toString("hex")` applied to the drawn bytes. -/
def bytesToHex (bs : List Nat) : String := String.mk (bytesToHexChars bs)

/-- The JSON body the route responds with. -/
structure SaveResponse where
  success : Bool
  fileName : Option String
  error : Option String
deriving DecidableEq

/-- Full observable result of one request: response body, HTTP status, and
the file written to disk (path and bytes), if any. -/
structure PostResult where
  response : SaveResponse
  status : Nat
  written : Option (String × List Nat)
deriving DecidableEq

/-- The route handler `POST` from `app/api/save-image/route.ts`: name the
file from 16 random bytes rendered as hex plus `.png`, strip the data-URI
prefix, base64-decode, write under `public/captured-photos`, and answer
`{success: true, fileName}` — or `{success: false, error}` with status 500
when the write (or anything else in the `try` block) throws.  `writeOk`
is whether the `writeFile` call succeeds. -/
def POST (image : String) (randomBytes : List Nat) (writeOk : Bool) : PostResult :=
  let randomName := bytesToHex randomBytes
  let fileName := randomName ++ ".png"
  let base64Data := stripDataUri image
  let buffer := base64Decode base64Data
  let path := "public/captured-photos/" ++ fileName
  if writeOk then ⟨⟨true, some fileName, none⟩, 200, some (path, buffer)⟩
  else ⟨⟨false, none, some "Failed to save image"⟩, 500, none⟩

/- ## FaceDetection: expression selection and overlay drawing

`app/components/FaceDetection.tsx`.  `detection.expressions` is a mapping
from expression name to confidence; `Object.entries` presents it as a list
of pairs in insertion order.  Confidence scores are embedded as rationals. -/

/-- The accumulator step of
`Object.entries(expressions).reduce((a, b) => a[1] > b[1] ? a : b)`:
keep the accumulator only when its score is strictly greater. -/
def jsReduceMax : (String × ℚ) → List (String × ℚ) → (String × ℚ)
  | a, [] => a
  | a, b :: rest => jsReduceMax (if a.2 > b.2 then a else b) rest

/-- The `dominantExpression` computed in `detectExpressions`; JS `reduce`
without an initial value throws on an empty array, hence `none` there. -/
def dominantExpression : List (String × ℚ) → Option (String × ℚ)
  | [] => none
  | x :: xs => some (jsReduceMax x xs)

/-- The rendered text
`` `${dominantExpression[0]}: ${Math.round(dominantExpression[1] * 100)}%` ``. -/
def expressionLabel (es : List (String × ℚ)) : Option String :=
  (dominantExpression es).map fun d => d.1 ++ ": " ++ toString (jsRound (d.2 * 100)) ++ "%"

/-- A face found by `detectSingleFace(...).withFaceExpressions()`: box and
expression scores.  The canvas is sized to the video by `handleVideoPlay`
and `matchDimensions`, so the resized box coincides with the detected one. -/
structure DetectionResult where
  x : ℚ
  y : ℚ
  w : ℚ
  h : ℚ
  expressions : List (String × ℚ)
deriving DecidableEq

/-- What one detection cycle can leave drawn on the overlay canvas. -/
inductive DrawOp
  | box (x y w h : ℚ)
  | label (text : String)
deriving DecidableEq

/-- The drawing part of one `detectExpressions` cycle, acting on the list
of operations currently visible on the overlay canvas.  With a detection
and a 2d context the code clears the canvas (`clearRect` over the full
canvas), draws the detection box and then the expression label; with no
detection it only logs, and with no context it returns — in both of those
cases the overlay contents are untouched. -/
def detectCycleDraw (overlay : List DrawOp) (ctxOk : Bool)
    (det : Option DetectionResult) : List DrawOp :=
  match det with
  | none => overlay
  | some d =>
    if ctxOk then
      [DrawOp.box d.x d.y d.w d.h,
       DrawOp.label ((expressionLabel d.expressions).getD "")]
    else overlay

/- ## FaceDetection: pipeline state machine

The component's hooks (`modelsLoaded`, `isVideoPlaying`) plus the liveness
of the animation-frame loop, and monitor fields recording — at the moment
each guarded action fires — whether it fired outside its intended phase.
Counters record how many detection passes and camera acquisitions ran. -/

structure FDState where
  modelsLoaded : Bool
  isVideoPlaying : Bool
  loopActive : Bool
  detectionCalls : Nat
  cameraAcquisitions : Nat
  detectionWhileNotLoaded : Bool
  cameraWhileNotLoaded : Bool
  loopStartedWhileNotPlaying : Bool
deriving DecidableEq

/-- State after the first render: models not loaded, video not playing, no
loop scheduled, nothing run. -/
def fdInit : FDState :=
  { modelsLoaded := false, isVideoPlaying := false, loopActive := false,
    detectionCalls := 0, cameraAcquisitions := 0,
    detectionWhileNotLoaded := false, cameraWhileNotLoaded := false,
    loopStartedWhileNotPlaying := false }

/-- One run of `detectExpressions`: the guard
`!videoRef.current || !canvasRef.current || !isVideoPlaying` returns
without scheduling another frame (the loop dies); past it the external
model runs one detection pass and `requestAnimationFrame` re-schedules.
`refsOk` is whether both refs are non-null at this tick. -/
def detectStep (s : FDState) (refsOk : Bool) : FDState :=
  if !(refsOk && s.isVideoPlaying) then { s with loopActive := false }
  else
    { s with detectionCalls := s.detectionCalls + 1,
             detectionWhileNotLoaded := s.detectionWhileNotLoaded || !s.modelsLoaded }

/-- Re-run of the detection-loop effect (deps `[modelsLoaded,
isVideoPlaying]`): the cleanup cancels any pending animation frame, then
the body calls `detectExpressions()` iff `modelsLoaded && isVideoPlaying`. -/
def runLoopEffect (s : FDState) (refsOk : Bool) : FDState :=
  let s1 := { s with loopActive := false }
  if s1.modelsLoaded && s1.isVideoPlaying then
    detectStep
      { s1 with loopActive := true,
                loopStartedWhileNotPlaying :=
                  s1.loopStartedWhileNotPlaying || !s1.isVideoPlaying }
      refsOk
  else s1

/-- Re-run of the webcam effect (deps `[modelsLoaded]`): `startVideo()` is
called only when `modelsLoaded`; `grantOk` is whether `getUserMedia`
resolves. -/
def runWebcamEffect (s : FDState) (grantOk : Bool) : FDState :=
  if s.modelsLoaded then
    if grantOk then
      { s with cameraAcquisitions := s.cameraAcquisitions + 1,
               cameraWhileNotLoaded := s.cameraWhileNotLoaded || !s.modelsLoaded }
    else s
  else s

/-- External events driving the component: the model load resolving or
rejecting, the `<video>` element's `onPlay` firing (`handleVideoPlay`),
and an animation-frame tick. -/
inductive FDEvent
  | modelLoadSuccess (grantOk refsOk : Bool)
  | modelLoadFailure
  | videoPlay (refsOk : Bool)
  | tick (refsOk : Bool)
deriving DecidableEq

/-- Transition on one event.  A state hook change re-renders and re-runs
every effect whose dependency changed; `setModelsLoaded(true)` re-runs the
webcam effect and the loop effect, `setIsVideoPlaying(true)` re-runs the
loop effect; a failed model load only logs; a tick runs `detectExpressions`
when a frame was scheduled. -/
def fdStep (s : FDState) : FDEvent → FDState
  | .modelLoadSuccess grantOk refsOk =>
    runLoopEffect (runWebcamEffect { s with modelsLoaded := true } grantOk) refsOk
  | .modelLoadFailure => s
  | .videoPlay refsOk => runLoopEffect { s with isVideoPlaying := true } refsOk
  | .tick refsOk => if s.loopActive then detectStep s refsOk else s

/-- A whole page run: fold the events over the freshly mounted component. -/
def fdRun (evs : List FDEvent) : FDState := evs.foldl fdStep fdInit

/- ## Claim C1 -/

/-- C1: while a save is in flight (`isSaving = true`) the save trigger is
disabled, so re-triggering the save is rejected as a no-op — no new
persistence request is issued and the component state is unchanged. -/
theorem save_rejected_while_saving (st : CaptureState) (o : SaveOutcome)
    (h : st.isSaving = true) : clickSave st o = ⟨st, false, []⟩ := by
  simp [clickSave, saveDisabled, h]

/-- Witness for `save_rejected_while_saving` at a state holding a captured
frame with a save in flight. -/
theorem save_rejected_while_saving_witness :
    ({ capturedImage := some "img", isSaving := true, savedFileName := none } : CaptureState).isSaving = true ∧
      clickSave { capturedImage := some "img", isSaving := true, savedFileName := none }
        SaveOutcome.serverFail
        = ⟨{ capturedImage := some "img", isSaving := true, savedFileName := none }, false, []⟩ :=
  ⟨rfl, save_rejected_while_saving _ _ rfl⟩

/- ## Claim C5 -/

/-- C5: a successful capture (both refs non-null, 2d context obtained)
produces a raster whose width and height equal the video element's
reported `videoWidth` and `videoHeight`, and stores its serialization. -/
theorem capture_dims_match_video (v : VideoEl) (c : Canvas) (st : CaptureState) :
    ∃ cf : Canvas,
      (capturePhoto (some v) (some c) true st).1 = some cf ∧
      cf.width = v.videoWidth ∧
      cf.height = v.videoHeight ∧
      (capturePhoto (some v) (some c) true st).2.capturedImage = some (canvasToDataURL cf) ∧
      cf.content = CanvasContent.drawn v.frame v.videoWidth v.videoHeight :=
  ⟨_, rfl, rfl, rfl, rfl, rfl⟩

/- ## Claim C6 -/

/-- C6: when the endpoint answers `{success: false}`, the failure is
logged and non-fatal — `isSaving` returns to `false`, `savedFileName`
stays `none`, `capturedImage` is retained unchanged, and the save trigger
is actionable again (not disabled). -/
theorem save_server_failure_nonfatal (st : CaptureState)
    (h1 : jsFalsyStr st.capturedImage = false) (h2 : st.savedFileName = none) :
    (savePhoto st SaveOutcome.serverFail).state.isSaving = false ∧
      (savePhoto st SaveOutcome.serverFail).state.savedFileName = none ∧
      (savePhoto st SaveOutcome.serverFail).state.capturedImage = st.capturedImage ∧
      (savePhoto st SaveOutcome.serverFail).logs = ["Failed to save image"] ∧
      saveDisabled (savePhoto st SaveOutcome.serverFail).state = false := by
  simp [savePhoto, saveDisabled, h1, h2]

/-- Witness for `save_server_failure_nonfatal`. -/
theorem save_server_failure_nonfatal_witness :
    jsFalsyStr ({ capturedImage := some "img", isSaving := false, savedFileName := none } : CaptureState).capturedImage = false ∧
      (savePhoto { capturedImage := some "img", isSaving := false, savedFileName := none }
          SaveOutcome.serverFail).state.isSaving = false ∧
      (savePhoto { capturedImage := some "img", isSaving := false, savedFileName := none }
          SaveOutcome.serverFail).state.savedFileName = none ∧
      (savePhoto { capturedImage := some "img", isSaving := false, savedFileName := none }
          SaveOutcome.serverFail).state.capturedImage = some "img" ∧
      (savePhoto { capturedImage := some "img", isSaving := false, savedFileName := none }
          SaveOutcome.serverFail).logs = ["Failed to save image"] ∧
      saveDisabled (savePhoto { capturedImage := some "img", isSaving := false, savedFileName := none }
          SaveOutcome.serverFail).state = false := by
  refine ⟨by decide, ?_⟩
  exact save_server_failure_nonfatal _ (by decide) rfl

/- ## Claim C9 -/

/-- C9: invoking `savePhoto` with no captured frame is a complete no-op:
no persistence request is issued, nothing is logged, and every state field
is unchanged. -/
theorem save_noop_without_capture (st : CaptureState) (o : SaveOutcome)
    (h : st.capturedImage = none) : savePhoto st o = ⟨st, false, []⟩ := by
  simp [savePhoto, jsFalsyStr, h]

/-- Witness for `save_noop_without_capture`. -/
theorem save_noop_without_capture_witness :
    ({ capturedImage := none, isSaving := false, savedFileName := none } : CaptureState).capturedImage = none ∧
      savePhoto { capturedImage := none, isSaving := false, savedFileName := none } SaveOutcome.serverFail
        = ⟨{ capturedImage := none, isSaving := false, savedFileName := none }, false, []⟩ :=
  ⟨rfl, save_noop_without_capture _ _ rfl⟩

/- ## Claim C10 -/

/-- C10: whenever `savePhoto` actually runs a save (a captured frame is
present, so the guard is passed), it terminates with `isSaving = false` —
on success, on a reported server failure, and on a thrown exception alike,
by the `finally` block. -/
theorem save_terminates_not_saving (st : CaptureState) (o : SaveOutcome)
    (h : jsFalsyStr st.capturedImage = false) :
    (savePhoto st o).state.isSaving = false := by
  cases o <;> simp [savePhoto, h]

/-- Witness for `save_terminates_not_saving`. -/
theorem save_terminates_not_saving_witness :
    jsFalsyStr ({ capturedImage := some "img", isSaving := false, savedFileName := none } : CaptureState).capturedImage = false ∧
      (savePhoto { capturedImage := some "img", isSaving := false, savedFileName := none }
          SaveOutcome.netError).state.isSaving = false :=
  ⟨by decide, save_terminates_not_saving _ _ (by decide)⟩

/- ## Claim C2 -/

/-- C2 fails on the code: the mount effect's cleanup closure captures the
first render's `stream` value, which is `null`, so unmounting never stops
the tracks of the stream acquired afterwards.  Concretely: mount with the
permission granted and the video ref present acquires stream `0`; the
cleanup then captured `stream = null`, and after unmount stream `0` still
has a live track, while the component no longer holds it. -/
theorem unmount_leaves_stream_active :
    (mountWebcamCapture [] true true).stream = some 0 ∧
      (mountWebcamCapture [] true true).cleanupCaptured = none ∧
      streamActive (unmountWebcamCapture (mountWebcamCapture [] true true)) 0 = true := by
  decide

/- ## Claim C7 -/

section
attribute [local semireducible] Rat.add Rat.mul

/-- C7 as stated is false: a cycle that finds no face does not clear the
overlay.  After a cycle that drew a box and a label, a subsequent cycle
with no detection leaves both drawn — the overlay is neither cleared nor
blank. -/
theorem stale_overlay_after_no_face :
    detectCycleDraw
        (detectCycleDraw [] true (some ⟨10, 20, 30, 40, [("happy", Rat.divInt 9 10)]⟩))
        true none
      = [DrawOp.box 10 20 30 40, DrawOp.label "happy: 90%"] ∧
      detectCycleDraw
          (detectCycleDraw [] true (some ⟨10, 20, 30, 40, [("happy", Rat.divInt 9 10)]⟩))
          true none ≠ [] := by
  constructor
  · decide
  · decide

end

/-- C7 amended: in every detection cycle where no face is detected the
overlay surface is left unchanged — whatever box or label the last
face-bearing cycle drew remains visible until the next detection clears
and redraws it. -/
theorem no_face_leaves_overlay_unchanged (overlay : List DrawOp) (ctxOk : Bool) :
    detectCycleDraw overlay ctxOk none = overlay := rfl

/- ## Helper lemmas for the save-image route -/

theorem dropLeading_self : ∀ (l r : List Char), dropLeading l (l ++ r) = some r
  | [], _ => rfl
  | c :: cs, r => by simp [dropLeading, dropLeading_self cs r]

theorem takeWord_append : ∀ (w : List Char) (d : Char) (r : List Char),
    (∀ c ∈ w, isWordChar c = true) → isWordChar d = false →
    takeWord (w ++ d :: r) = (w, d :: r)
  | [], d, r, _, hd => by simp [takeWord, hd]
  | c :: cs, d, r, hw, hd => by
    have hc : isWordChar c = true := hw c (by simp)
    have ih := takeWord_append cs d r (fun x hx => hw x (by simp [hx])) hd
    simp [takeWord, hc, ih]

/-- The route's regex replace does strip a well-formed data-URI prefix. -/
theorem stripDataUri_strips (mime payload : String)
    (h1 : mime.data ≠ []) (h2 : ∀ c ∈ mime.data, isWordChar c = true) :
    stripDataUri ("data:image/" ++ mime ++ ";base64," ++ payload) = payload := by
  have hdata : ("data:image/" ++ mime ++ ";base64," ++ payload).data
      = "data:image/".data ++ (mime.data ++ (';' :: ("base64,".data ++ payload.data))) := by
    show ("data:image/".data ++ mime.data ++ ";base64,".data ++ payload.data : List Char) = _
    simp [List.append_assoc]
  have hsemi : isWordChar ';' = false := by decide
  have hne : mime.data.isEmpty = false := by
    cases h : mime.data with
    | nil => exact absurd h h1
    | cons a l => rfl
  have hdrop : dropLeading ";base64,".data (';' :: ("base64,".data ++ payload.data))
      = some payload.data := dropLeading_self ";base64,".data payload.data
  rw [stripDataUri, hdata, dropLeading_self]
  simp only [takeWord_append mime.data ';' ("base64,".data ++ payload.data) h2 hsemi,
    hne, Bool.false_eq_true, if_false, hdrop]

theorem bytesToHexChars_length : ∀ bs : List Nat, (bytesToHexChars bs).length = 2 * bs.length
  | [] => rfl
  | b :: bs => by
    simp [bytesToHexChars, byteToHex, bytesToHexChars_length bs]
    omega

theorem hexDigit_isHex (n : Nat) : isHexChar (hexDigit n) = true := by
  have h : ∀ m, m < 16 →
      isHexChar (if m < 10 then Char.ofNat (48 + m) else Char.ofNat (87 + m)) = true := by
    decide
  exact h (n % 16) (Nat.mod_lt _ (by norm_num))

theorem bytesToHexChars_all_hex :
    ∀ bs : List Nat, (bytesToHexChars bs).all (fun c => isHexChar c) = true
  | [] => rfl
  | b :: bs => by
    simp only [bytesToHexChars, byteToHex, List.cons_append, List.nil_append, List.all_cons,
      Bool.and_eq_true]
    exact ⟨hexDigit_isHex _, hexDigit_isHex _, bytesToHexChars_all_hex bs⟩

/- ## Claim C8 -/

/-- C8: for every request whose image is a data-URI, the route strips the
data-URI prefix and base64-decodes the remainder; on a successful write it
writes those bytes under the fixed public directory at a 32-character hex
filename with the `.png` extension derived from the 16 random bytes and
answers `{success: true, fileName}`, and on a failed write it answers
`{success: false, error}` with status 500 and writes nothing. -/
theorem post_save_image (mime payload : String) (rnd : List Nat)
    (h1 : mime.data ≠ []) (h2 : mime.data.all isWordChar = true)
    (h3 : rnd.length = 16) :
    (POST ("data:image/" ++ mime ++ ";base64," ++ payload) rnd true).response
        = ⟨true, some (bytesToHex rnd ++ ".png"), none⟩ ∧
      (POST ("data:image/" ++ mime ++ ";base64," ++ payload) rnd true).status = 200 ∧
      (POST ("data:image/" ++ mime ++ ";base64," ++ payload) rnd true).written
        = some ("public/captured-photos/" ++ (bytesToHex rnd ++ ".png"), base64Decode payload) ∧
      (bytesToHex rnd).length = 32 ∧
      (bytesToHex rnd).data.all (fun c => isHexChar c) = true ∧
      (POST ("data:image/" ++ mime ++ ";base64," ++ payload) rnd false).response
        = ⟨false, none, some "Failed to save image"⟩ ∧
      (POST ("data:image/" ++ mime ++ ";base64," ++ payload) rnd false).status = 500 ∧
      (POST ("data:image/" ++ mime ++ ";base64," ++ payload) rnd false).written = none := by
  have h2' : ∀ c ∈ mime.data, isWordChar c = true := by
    intro c hc
    exact List.all_eq_true.mp h2 c hc
  have hstrip := stripDataUri_strips mime payload h1 h2'
  have hlen : (bytesToHex rnd).length = 32 := by
    show (bytesToHexChars rnd).length = 32
    rw [bytesToHexChars_length, h3]
  refine ⟨by simp [POST], by simp [POST], ?_, hlen, bytesToHexChars_all_hex rnd,
    by simp [POST], by simp [POST], by simp [POST]⟩
  simp [POST, hstrip]

/-- Witness for `post_save_image`: the payload `QUJD` decodes to the bytes
of `ABC` and the zero random bytes give a 32-character hex name. -/
theorem post_save_image_witness :
    ("png".data ≠ [] ∧ "png".data.all isWordChar = true ∧
        (List.replicate 16 0).length = 16) ∧
      (POST ("data:image/" ++ "png" ++ ";base64," ++ "QUJD") (List.replicate 16 0) true).response
        = ⟨true, some (bytesToHex (List.replicate 16 0) ++ ".png"), none⟩ ∧
      (POST ("data:image/" ++ "png" ++ ";base64," ++ "QUJD") (List.replicate 16 0) true).status = 200 ∧
      (POST ("data:image/" ++ "png" ++ ";base64," ++ "QUJD") (List.replicate 16 0) true).written
        = some ("public/captured-photos/" ++ (bytesToHex (List.replicate 16 0) ++ ".png"),
            base64Decode "QUJD") ∧
      (bytesToHex (List.replicate 16 0)).length = 32 ∧
      (bytesToHex (List.replicate 16 0)).data.all (fun c => isHexChar c) = true ∧
      (POST ("data:image/" ++ "png" ++ ";base64," ++ "QUJD") (List.replicate 16 0) false).response
        = ⟨false, none, some "Failed to save image"⟩ ∧
      (POST ("data:image/" ++ "png" ++ ";base64," ++ "QUJD") (List.replicate 16 0) false).status = 500 ∧
      (POST ("data:image/" ++ "png" ++ ";base64," ++ "QUJD") (List.replicate 16 0) false).written = none :=
  ⟨⟨by decide, by decide, by decide⟩,
    post_save_image "png" "QUJD" (List.replicate 16 0) (by decide) (by decide) (by decide)⟩

/- ## Claim C3 -/

/-- Inductive invariant of the `FaceDetection` pipeline: no guarded action
has ever fired outside its phase, a scheduled loop frame implies the model
is loaded and the video playing, and before the model is loaded neither a
detection pass nor a camera acquisition has run. -/
def fdInv (s : FDState) : Prop :=
  s.detectionWhileNotLoaded = false ∧
  s.cameraWhileNotLoaded = false ∧
  s.loopStartedWhileNotPlaying = false ∧
  (s.loopActive = true → s.modelsLoaded = true ∧ s.isVideoPlaying = true) ∧
  (s.modelsLoaded = false → s.detectionCalls = 0 ∧ s.cameraAcquisitions = 0)

theorem fdStep_preserves (s : FDState) (e : FDEvent) (h : fdInv s) :
    fdInv (fdStep s e) := by
  obtain ⟨h1, h2, h3, h4, h5⟩ := h
  cases e with
  | modelLoadSuccess grantOk refsOk =>
    cases grantOk <;> cases refsOk <;> cases hv : s.isVideoPlaying <;>
      simp_all [fdStep, runLoopEffect, runWebcamEffect, detectStep, fdInv]
  | modelLoadFailure => exact ⟨h1, h2, h3, h4, h5⟩
  | videoPlay refsOk =>
    cases refsOk <;> cases hm : s.modelsLoaded <;>
      simp_all [fdStep, runLoopEffect, detectStep, fdInv]
  | tick refsOk =>
    cases hl : s.loopActive with
    | false => simp_all [fdStep, fdInv]
    | true =>
      obtain ⟨hm, hv⟩ := h4 hl
      cases refsOk <;> simp_all [fdStep, detectStep, fdInv]

theorem fdRun_inv (evs : List FDEvent) : fdInv (fdRun evs) := by
  have main : ∀ (l : List FDEvent) (s : FDState), fdInv s → fdInv (l.foldl fdStep s) := by
    intro l
    induction l with
    | nil => exact fun s h => h
    | cons e rest ih => exact fun s h => ih _ (fdStep_preserves s e h)
  have hinit : fdInv fdInit := by
    refine ⟨rfl, rfl, rfl, ?_, ?_⟩
    · intro h
      exact absurd h (by decide)
    · intro _
      exact ⟨rfl, rfl⟩
  exact main evs fdInit hinit

/-- C3: over every event trace of the `FaceDetection` pipeline, no
detection pass ever runs while the models are not loaded, no camera
acquisition runs before model loading completes (so zero of either while
loading or after a failed load), and the detection loop is never started
while the video surface does not report active playback. -/
theorem detection_pipeline_ordering (evs : List FDEvent) :
    (fdRun evs).detectionWhileNotLoaded = false ∧
      (fdRun evs).cameraWhileNotLoaded = false ∧
      (fdRun evs).loopStartedWhileNotPlaying = false ∧
      ((fdRun evs).modelsLoaded = false →
        (fdRun evs).detectionCalls = 0 ∧ (fdRun evs).cameraAcquisitions = 0) := by
  obtain ⟨h1, h2, h3, _, h5⟩ := fdRun_inv evs
  exact ⟨h1, h2, h3, h5⟩

/-- Witness for `detection_pipeline_ordering` on the scenario from the
spec: the model load fails (the model state never reaches Loaded), the
video somehow plays and frames tick — still zero detection calls and zero
camera acquisitions. -/
theorem detection_pipeline_ordering_witness :
    (fdRun [FDEvent.modelLoadFailure, FDEvent.videoPlay true,
        FDEvent.tick true, FDEvent.tick true]).modelsLoaded = false ∧
      (fdRun [FDEvent.modelLoadFailure, FDEvent.videoPlay true,
          FDEvent.tick true, FDEvent.tick true]).detectionCalls = 0 ∧
      (fdRun [FDEvent.modelLoadFailure, FDEvent.videoPlay true,
          FDEvent.tick true, FDEvent.tick true]).cameraAcquisitions = 0 :=
  ⟨by decide,
    (detection_pipeline_ordering [FDEvent.modelLoadFailure, FDEvent.videoPlay true,
      FDEvent.tick true, FDEvent.tick true]).2.2.2 (by decide)⟩

/- ## Claim C4 -/

/-- Specification-side maximum of the confidence scores of a non-empty
entry list (0 for the empty list, which never arises). -/
def maxScore : List (String × ℚ) → ℚ
  | [] => 0
  | [p] => p.2
  | p :: q :: rest => max p.2 (maxScore (q :: rest))

theorem le_maxScore : ∀ (a : String × ℚ) (xs : List (String × ℚ)) (p : String × ℚ),
    p ∈ a :: xs → p.2 ≤ maxScore (a :: xs)
  | a, [], p, hp => by
    have h : p = a := by simpa using hp
    subst h
    exact le_of_eq rfl
  | a, b :: xs, p, hp => by
    rcases List.mem_cons.mp hp with h | h
    · subst h
      show p.2 ≤ max p.2 (maxScore (b :: xs))
      exact le_max_left _ _
    · have ih := le_maxScore b xs p h
      show p.2 ≤ max a.2 (maxScore (b :: xs))
      exact le_trans ih (le_max_right _ _)

theorem maxScore_attained : ∀ (a : String × ℚ) (xs : List (String × ℚ)),
    ∃ p, p ∈ a :: xs ∧ p.2 = maxScore (a :: xs)
  | a, [] => ⟨a, by simp, rfl⟩
  | a, b :: xs => by
    obtain ⟨p, hp, hpeq⟩ := maxScore_attained b xs
    by_cases h : maxScore (b :: xs) ≤ a.2
    · refine ⟨a, by simp, ?_⟩
      show a.2 = max a.2 (maxScore (b :: xs))
      exact (max_eq_left h).symm
    · refine ⟨p, List.mem_cons_of_mem _ hp, ?_⟩
      show p.2 = max a.2 (maxScore (b :: xs))
      rw [max_eq_right (le_of_not_le h)]
      exact hpeq

/-- The JS `reduce` with `a[1] > b[1] ? a : b` selects the last entry (in
iteration order) whose score equals the maximum: scanning the reversed
list, it is the first entry with maximal score. -/
theorem jsReduceMax_eq_lastMax : ∀ (xs : List (String × ℚ)) (a : String × ℚ),
    some (jsReduceMax a xs)
      = ((a :: xs).reverse).find? fun p => decide (p.2 = maxScore (a :: xs))
  | [], a => by simp [jsReduceMax, maxScore]
  | b :: rest, a => by
    have hc2 : (if a.2 > b.2 then a else b).2 = max a.2 b.2 := by
      by_cases h : a.2 > b.2
      · rw [if_pos h, max_eq_left h.le]
      · rw [if_neg h, max_eq_right (not_lt.mp h)]
    have hM : maxScore ((if a.2 > b.2 then a else b) :: rest) = maxScore (a :: b :: rest) := by
      cases rest with
      | nil =>
        show (if a.2 > b.2 then a else b).2 = max a.2 b.2
        exact hc2
      | cons r rs =>
        show max (if a.2 > b.2 then a else b).2 (maxScore (r :: rs))
            = max a.2 (max b.2 (maxScore (r :: rs)))
        rw [hc2, max_assoc]
    have ih := jsReduceMax_eq_lastMax rest (if a.2 > b.2 then a else b)
    rw [hM] at ih
    have hred : jsReduceMax a (b :: rest) = jsReduceMax (if a.2 > b.2 then a else b) rest := rfl
    rw [hred, ih]
    rw [List.reverse_cons, List.reverse_cons, List.reverse_cons, List.append_assoc]
    rw [List.find?_append, List.find?_append]
    cases hfind : rest.reverse.find? (fun p => decide (p.2 = maxScore (a :: b :: rest))) with
    | some x => simp
    | none =>
      simp only [Option.none_or]
      by_cases hab : a.2 > b.2
      · have haM : a.2 ≤ maxScore (a :: b :: rest) := le_maxScore a (b :: rest) a (by simp)
        have hbM : b.2 ≠ maxScore (a :: b :: rest) := ne_of_lt (lt_of_lt_of_le hab haM)
        simp [List.find?, if_pos hab, hbM]
      · by_cases hb : b.2 = maxScore (a :: b :: rest)
        · rw [if_neg hab]
          simp [List.find?, hb]
        · exfalso
          obtain ⟨p, hp, hpeq⟩ := maxScore_attained a (b :: rest)
          have hnone := List.find?_eq_none.mp hfind
          rcases List.mem_cons.mp hp with h1 | h1
          · have haM : a.2 = maxScore (a :: b :: rest) := h1 ▸ hpeq
            have hble : b.2 ≤ maxScore (a :: b :: rest) :=
              le_maxScore a (b :: rest) b (by simp)
            have hMb : maxScore (a :: b :: rest) ≤ b.2 := haM ▸ not_lt.mp hab
            exact hb (le_antisymm hble hMb)
          · rcases List.mem_cons.mp h1 with h2 | h2
            · exact hb (h2 ▸ hpeq)
            · have := hnone p (List.mem_reverse.mpr h2)
              simp at this
              exact this hpeq

section
attribute [local semireducible] Rat.add Rat.mul

/-- C4 as stated is false at a tie: with two entries of exactly equal
confidence the rendered label names the second (last) entry, not the first
entry in iteration order. -/
theorem tie_goes_to_last_entry :
    expressionLabel [("x", Rat.divInt 1 2), ("y", Rat.divInt 1 2)] = some "y: 50%" ∧
      ("y: 50%" : String) ≠ "x: 50%" := by
  constructor
  · decide
  · decide

end

section
attribute [local semireducible] Rat.add Rat.mul

/-- C4 amended: for every non-empty expression-to-confidence mapping the
rendered label names the entry selected by the reduce, which is the *last*
entry (in mapping iteration order) whose confidence equals the maximum —
on exactly equal scores the last such entry wins, not the first — followed
by its confidence times 100 rounded to an integer and a percent sign; for
`{happy: 0.82, neutral: 0.10, sad: 0.08}` the label is `"happy: 82%"`. -/
theorem dominant_label_is_last_max (l : List (String × ℚ)) (h : l ≠ []) :
    dominantExpression l = l.reverse.find? (fun p => decide (p.2 = maxScore l)) ∧
      expressionLabel l
        = (dominantExpression l).map
            (fun d => d.1 ++ ": " ++ toString (jsRound (d.2 * 100)) ++ "%") ∧
      expressionLabel
          [("happy", Rat.divInt 82 100), ("neutral", Rat.divInt 10 100),
            ("sad", Rat.divInt 8 100)]
        = some "happy: 82%" := by
  refine ⟨?_, rfl, by decide⟩
  cases l with
  | nil => exact absurd rfl h
  | cons a xs => exact jsReduceMax_eq_lastMax xs a

/-- Witness for `dominant_label_is_last_max` at the example mapping of the
spec. -/
theorem dominant_label_is_last_max_witness :
    ([("happy", Rat.divInt 82 100), ("neutral", Rat.divInt 10 100),
        ("sad", Rat.divInt 8 100)] : List (String × ℚ)) ≠ [] ∧
      (dominantExpression
            [("happy", Rat.divInt 82 100), ("neutral", Rat.divInt 10 100),
              ("sad", Rat.divInt 8 100)]
          = ([("happy", Rat.divInt 82 100), ("neutral", Rat.divInt 10 100),
              ("sad", Rat.divInt 8 100)] : List (String × ℚ)).reverse.find?
              (fun p => decide (p.2
                = maxScore
                    [("happy", Rat.divInt 82 100), ("neutral", Rat.divInt 10 100),
                      ("sad", Rat.divInt 8 100)])) ∧
        expressionLabel
            [("happy", Rat.divInt 82 100), ("neutral", Rat.divInt 10 100),
              ("sad", Rat.divInt 8 100)]
          = (dominantExpression
                [("happy", Rat.divInt 82 100), ("neutral", Rat.divInt 10 100),
                  ("sad", Rat.divInt 8 100)]).map
              (fun d => d.1 ++ ": " ++ toString (jsRound (d.2 * 100)) ++ "%") ∧
        expressionLabel
            [("happy", Rat.divInt 82 100), ("neutral", Rat.divInt 10 100),
              ("sad", Rat.divInt 8 100)]
          = some "happy: 82%") :=
  ⟨by decide,
    dominant_label_is_last_max
      [("happy", Rat.divInt 82 100), ("neutral", Rat.divInt 10 100),
        ("sad", Rat.divInt 8 100)] (by decide)⟩

end
